import Mathlib

/-!
Verification of the bounded concurrent request dispatcher pattern from the
`effective-go` repository, together with its one executable program.

The source shows three concurrency snippets (a buffered-channel semaphore,
a fixed worker pool draining a request channel, and a `Request` type carrying
a private reply channel) and a `main` that prints a static string.  Each Go
construct used by the snippets is embedded shallowly below; where a spec-level
operation has no code in the source (the Dispatcher's `Submit`, `Shutdown`,
and the worker's reply write), the definition is modelled from the spec and
says so in its doc comment.
-/

namespace EffectiveGo

/-! ## Admission Gate: buffered-channel semaphore

Source: `var sem = make(chan int, MaxOutstanding)` and the `handle`/`Serve`
pair using it.  A buffered channel of capacity `c` holds at most `c` queued
values; `sem <- 1` completes only while the buffer has room, and `<- sem`
completes only while the buffer is nonempty (the source's own prose:
"if the buffer is full, this means waiting until some receiver has retrieved
a value"; "Receivers always block until theres data to receive").  The number
of values sitting in `sem` is exactly the `inUse` count of the Admission Gate.
-/

/-- A transition of the semaphore buffer occupancy: `acquire` is a completed
`sem <- 1` (enabled only while `inUse < capacity`, since the buffered send
blocks on a full buffer), `release` is a completed `<- sem` (enabled only
while the buffer is nonempty, since a receive blocks on an empty buffer). -/
inductive GateStep (capacity : Nat) : Nat → Nat → Prop
  | acquire (n : Nat) : n < capacity → GateStep capacity n (n + 1)
  | release (n : Nat) : 0 < n → GateStep capacity n (n - 1)

/-- The occupancy counts reachable from the freshly made channel, which starts
empty (`make` returns a channel ready for use, with an empty buffer). -/
inductive GateReachable (capacity : Nat) : Nat → Prop
  | init : GateReachable capacity 0
  | step {n m : Nat} : GateReachable capacity n → GateStep capacity n m →
      GateReachable capacity m

/-- C1: in every reachable state of the Admission Gate the occupancy satisfies
`0 ≤ inUse ≤ capacity`, and each single `acquire`/`release` transition
preserves the bound; hence at no instant do more than `capacity` task bodies
execute concurrently. -/
theorem gate_invariant (capacity : Nat) :
    (∀ n, GateReachable capacity n → 0 ≤ n ∧ n ≤ capacity) ∧
    (∀ n m, n ≤ capacity → GateStep capacity n m → m ≤ capacity) := by
  have hstep : ∀ n m, n ≤ capacity → GateStep capacity n m → m ≤ capacity := by
    intro n m _ hs
    cases hs with
    | acquire hlt => omega
    | release hpos => omega
  refine ⟨?_, hstep⟩
  intro n hr
  induction hr with
  | init => exact ⟨Nat.zero_le _, Nat.zero_le _⟩
  | step hr hs ih => exact ⟨Nat.zero_le _, hstep _ _ ih.2 hs⟩

/-- Witness for C1: with capacity 2, the state `inUse = 1` is reachable by one
completed acquire, and the theorem yields `1 ≤ 2` there; the preservation half
applies to the concrete release step `1 → 0`. -/
theorem gate_invariant_witness :
    GateReachable 2 1 ∧ (0 ≤ 1 ∧ 1 ≤ 2) ∧ 0 ≤ 2 := by
  have hreach : GateReachable 2 1 :=
    GateReachable.step GateReachable.init (GateStep.acquire 0 (by decide))
  have hrel : GateStep 2 1 0 := GateStep.release 1 (by decide)
  exact ⟨hreach, (gate_invariant 2).1 1 hreach,
    (gate_invariant 2).2 1 0 (by decide) hrel⟩

/-! ## The semaphore `handle`: acquire/body/release pairing

Source lines 655–659:
`func handle(r *Request) { sem <- 1; process(r); <- sem }`.
The task body `process` may compute an error; in Go an error is an ordinary
return value, and a call in statement position discards its results, so
control always falls through to `<- sem` whatever the outcome (the spec's
error model likewise carries task-body errors as values, never as faults). -/

/-- One event in an execution of the semaphore `handle`: a completed
`sem <- 1`, the run of the task body with its outcome, or a completed
`<- sem`. -/
inductive SemEvent (Err : Type) where
  | acq : SemEvent Err
  | body (outcome : Except Err Unit) : SemEvent Err
  | rel : SemEvent Err

/-- Recognizes the acquire event. -/
def SemEvent.isAcq {Err : Type} : SemEvent Err → Bool
  | SemEvent.acq => true
  | _ => false

/-- Recognizes the release event. -/
def SemEvent.isRel {Err : Type} : SemEvent Err → Bool
  | SemEvent.rel => true
  | _ => false

/-- Execution trace of the semaphore `handle` (source lines 655–659):
send on `sem`, run the body, receive from `sem`, in that order. -/
def handleSemTrace {Req Err : Type} (process : Req → Except Err Unit) (r : Req) :
    List (SemEvent Err) :=
  [SemEvent.acq, SemEvent.body (process r), SemEvent.rel]

/-- C5: for every task body `process` — including one whose outcome is an
error — the trace of `handle` splits around the single body event so that
exactly one acquire and no release precede the body (no body runs without a
prior successful acquire) and exactly one release follows it (the acquire is
matched by exactly one release on every exit path, so no execution leaks a
gate slot). -/
theorem handle_pairs_gate {Req Err : Type} (process : Req → Except Err Unit)
    (r : Req) :
    ∃ pre post,
      handleSemTrace process r = pre ++ [SemEvent.body (process r)] ++ post ∧
      pre.countP (fun e => e.isAcq) = 1 ∧
      pre.countP (fun e => e.isRel) = 0 ∧
      post.countP (fun e => e.isAcq) = 0 ∧
      post.countP (fun e => e.isRel) = 1 := by
  refine ⟨[SemEvent.acq], [SemEvent.rel], rfl, ?_, ?_, ?_, ?_⟩ <;>
    simp [SemEvent.isAcq, SemEvent.isRel]

/-! ## The worker-pool `handle`: FIFO consumption of the intake

Source lines 677–681:
`func handle(queue chan *Request) { for r := range queue { process(r) } }`.
A Go channel delivers values in the order they were sent, so the pending
intake is modelled as a list in submission order and a receive takes the
head. -/

/-- A worker observably begins a request or finishes it with its result. -/
inductive WorkerEvent (Req Res : Type) where
  | begin (r : Req) : WorkerEvent Req Res
  | finish (r : Req) (result : Res) : WorkerEvent Req Res

/-- The worker-pool `handle` loop run by a single worker over the whole
intake: it receives each request in turn, begins it, runs `process`, and
records the finished result, until the channel is closed and exhausted. -/
def handleLoop {Req Res : Type} (process : Req → Res) :
    List Req → List (WorkerEvent Req Res)
  | [] => []
  | r :: rs =>
      WorkerEvent.begin r :: WorkerEvent.finish r (process r) ::
        handleLoop process rs

/-- The requests a trace begins, in trace order. -/
def beginsOf {Req Res : Type} : List (WorkerEvent Req Res) → List Req :=
  List.filterMap fun e =>
    match e with
    | WorkerEvent.begin r => some r
    | WorkerEvent.finish _ _ => none

/-- A receive from the intake channel: takes the oldest pending request. -/
def dequeue {Req : Type} : List Req → Option (Req × List Req)
  | [] => none
  | r :: rs => some (r, rs)

/-- C7: with one worker the tasks are begun in exactly submission order
(the begin sequence of the single worker's trace is the intake in FIFO
order), and for any number of workers each receive from the intake returns
the earliest-submitted pending request, leaving the rest in order — tasks
are pulled in FIFO submission order. -/
theorem fifo_order {Req Res : Type} (process : Req → Res) (queue : List Req) :
    beginsOf (handleLoop process queue) = queue ∧
    ∀ (q : List Req) (r : Req) (rs : List Req),
      dequeue q = some (r, rs) → q = r :: rs := by
  constructor
  · induction queue with
    | nil => rfl
    | cons a as ih => simp [handleLoop, beginsOf] at ih ⊢; exact ih
  · intro q r rs h
    cases q with
    | nil => simp [dequeue] at h
    | cons a as =>
      simp [dequeue] at h
      simp [h.1, h.2]

/-- Witness for C7: a single worker over the concrete intake `[1, 2, 3]`
begins the tasks in exactly that order, and a receive from the concrete
queue `[9, 7]` returns `9` leaving `[7]`. -/
theorem fifo_order_witness :
    beginsOf (handleLoop (fun n : Nat => n * n) [1, 2, 3]) = [1, 2, 3] ∧
    ([9, 7] : List Nat) = 9 :: [7] :=
  ⟨(fifo_order (fun n : Nat => n * n) [1, 2, 3]).1,
   (fifo_order (fun n : Nat => n * n) [1, 2, 3]).2 [9, 7] 9 [7] rfl⟩

/-! ## Dispatcher: shutdown with drain, and submission after shutdown

Source lines 683–689 show `Serve` starting the fixed pool of `handle`
goroutines and blocking on a `quit` channel; the Dispatcher operations
`Submit` and `Shutdown` themselves have no code in the source, so they are
modelled from the spec below, on top of the worker loop that the source
does show. -/

/-- The Dispatcher's observable state: whether it still accepts submissions,
the FIFO intake of queued requests, and the fresh correlation token for the
next submission. -/
structure DispatcherState (Req : Type) where
  accepting : Bool
  intake : List (Nat × Req)
  nextId : Nat

/-- Modelled from the spec: the Dispatcher's `Shutdown` with drain on — an
operation the source does not contain.  Per the spec it sets the one-shot
shutdown signal (no new submissions), then the workers run the source's
`handle` loop until the intake is closed and exhausted, and `Shutdown`
returns only afterwards; the returned trace is everything the workers did
before `Shutdown` returned. -/
def shutdownDrain {Req Res : Type} (process : Nat × Req → Res)
    (d : DispatcherState Req) :
    DispatcherState Req × List (WorkerEvent (Nat × Req) Res) :=
  (⟨false, [], d.nextId⟩, handleLoop process d.intake)

theorem finish_mem_handleLoop {Req Res : Type} (process : Req → Res) :
    ∀ (l : List Req) (r : Req), r ∈ l →
      WorkerEvent.finish r (process r) ∈ handleLoop process l := by
  intro l
  induction l with
  | nil => intro r h; cases h
  | cons a as ih =>
    intro r h
    simp only [handleLoop]
    rcases List.mem_cons.mp h with h1 | h2
    · subst h1
      exact List.mem_cons_of_mem _ (List.mem_cons_self _ _)
    · exact List.mem_cons_of_mem _ (List.mem_cons_of_mem _ (ih r h2))

/-- C4: every task queued when `Shutdown` with drain is called is executed to
completion — its finish event, carrying its reply value, is in the trace
emitted before `Shutdown` returns; the worker exits only with the intake
exhausted (it begins exactly the queued tasks, in order, so none is
dropped), and afterwards the intake is empty and closed to submissions. -/
theorem shutdown_drains {Req Res : Type} (process : Nat × Req → Res)
    (d : DispatcherState Req) :
    (∀ t, t ∈ d.intake →
      WorkerEvent.finish t (process t) ∈ (shutdownDrain process d).2) ∧
    beginsOf (shutdownDrain process d).2 = d.intake ∧
    (shutdownDrain process d).1.intake = [] ∧
    (shutdownDrain process d).1.accepting = false := by
  refine ⟨?_, ?_, rfl, rfl⟩
  · intro t ht
    exact finish_mem_handleLoop process d.intake t ht
  · have h := (fifo_order process d.intake).1
    simpa [shutdownDrain] using h

/-- Witness for C4: draining the concrete dispatcher holding two queued
tasks delivers both finish events before returning, begins them in order,
and leaves the intake empty. -/
theorem shutdown_drains_witness :
    WorkerEvent.finish (0, 10) 11 ∈
      (shutdownDrain (fun p : Nat × Nat => p.2 + 1)
        ⟨true, [(0, 10), (1, 20)], 2⟩).2 ∧
    WorkerEvent.finish (1, 20) 21 ∈
      (shutdownDrain (fun p : Nat × Nat => p.2 + 1)
        ⟨true, [(0, 10), (1, 20)], 2⟩).2 ∧
    beginsOf (shutdownDrain (fun p : Nat × Nat => p.2 + 1)
        ⟨true, [(0, 10), (1, 20)], 2⟩).2 = [(0, 10), (1, 20)] := by
  have h := shutdown_drains (fun p : Nat × Nat => p.2 + 1)
    ⟨true, [(0, 10), (1, 20)], 2⟩
  exact ⟨h.1 (0, 10) (by simp), h.1 (1, 20) (by simp), h.2.1⟩

/-- The `Closed` error: submission attempted after shutdown. -/
inductive SubmitError where
  | Closed : SubmitError

/-- Modelled from the spec: the Dispatcher's `Submit` — an operation the
source does not contain.  Per the spec it constructs a Task with a fresh
correlation token and enqueues it on the intake in FIFO order, returning the
handle; if the shutdown signal has been set, it fails with `Closed` and
creates and enqueues nothing.  It is a total function, so it never blocks. -/
def Submit {Req : Type} (p : Req) (d : DispatcherState Req) :
    Except SubmitError Nat × DispatcherState Req :=
  if d.accepting then
    (Except.ok d.nextId,
      ⟨true, d.intake ++ [(d.nextId, p)], d.nextId + 1⟩)
  else
    (Except.error SubmitError.Closed, d)

/-- C3: a `Submit` made after the shutdown signal has been set returns the
`Closed` error and leaves the dispatcher state exactly unchanged — no new
task is created (the fresh-token counter does not move) and nothing is
enqueued on the intake; being a total function of the state, it does not
block. -/
theorem submit_after_shutdown {Req : Type} (p : Req) (d : DispatcherState Req)
    (h : d.accepting = false) :
    (Submit p d).1 = Except.error SubmitError.Closed ∧ (Submit p d).2 = d := by
  simp [Submit, h]

/-- Witness for C3: submitting to a concrete shut-down dispatcher yields
`Closed` and the identical state. -/
theorem submit_after_shutdown_witness :
    (Submit 5 (⟨false, [], 3⟩ : DispatcherState Nat)).1 =
      Except.error SubmitError.Closed ∧
    (Submit 5 (⟨false, [], 3⟩ : DispatcherState Nat)).2 = ⟨false, [], 3⟩ :=
  submit_after_shutdown 5 ⟨false, [], 3⟩ rfl

/-! ## Per-request reply channels

Source lines 698–717: the `Request` type carries `args`, a function `f`, and
a private `resultChan`; the `sum` body and the client that submits a request
and reads the answer.  Each reply channel is identified below by the
submission's correlation token, and the delivery log records every value
ever written to any reply channel. -/

/-- The `Request` type from the source (lines 698–703), minus the channel
handle itself: the work's arguments and the function to apply.  The reply
channel a request owns is identified by its correlation token. -/
structure GoRequest where
  args : List Int
  f : List Int → Int

/-- The `sum` task body from the source (lines 706–711). -/
def sum (a : List Int) : Int :=
  a.foldl (fun s v => s + v) 0

/-- Modelled from the spec: the worker's single write of `f(args)` to the
request's `resultChan` — the source shows the `Request` type and the
client's read of `resultChan` but not the worker's write.  Running the whole
intake yields the delivery log: every value ever written to any reply
channel, tagged with the owning request's correlation token; each request's
worker contributes exactly its one write. -/
def deliveries (tasks : List (Nat × GoRequest)) : List (Nat × Int) :=
  tasks.map (fun t => (t.1, t.2.f t.2.args))

theorem deliveries_countP_zero (i : Nat) :
    ∀ l : List (Nat × GoRequest), i ∉ l.map Prod.fst →
      (deliveries l).countP (fun e => e.1 == i) = 0 := by
  intro l
  induction l with
  | nil => intro _; rfl
  | cons a as ih =>
    intro hnot
    have h1 : a.1 ≠ i := by
      intro h
      exact hnot (by simp [h.symm])
    have h2 : i ∉ as.map Prod.fst := by
      intro h
      exact hnot (by simp [List.mem_map] at h ⊢; tauto)
    rw [show deliveries (a :: as)
        = (a.1, a.2.f a.2.args) :: deliveries as from rfl,
      List.countP_cons, ih h2]
    simp [h1]

/-- C2: when correlation tokens are unique per submission (each Task is
submitted once), every accepted task's reply channel receives exactly one
value in the whole delivery log — no double delivery and no missing
delivery. -/
theorem reply_exactly_once (tasks : List (Nat × GoRequest))
    (hids : (tasks.map Prod.fst).Nodup) :
    ∀ i r, (i, r) ∈ tasks →
      (deliveries tasks).countP (fun e => e.1 == i) = 1 := by
  induction tasks with
  | nil => intro i r h; cases h
  | cons a as ih =>
    intro i r hmem
    have hnd : (as.map Prod.fst).Nodup := (List.nodup_cons.mp hids).2
    have hhead : a.1 ∉ as.map Prod.fst := (List.nodup_cons.mp hids).1
    rcases List.mem_cons.mp hmem with h1 | h2
    · have hi : a.1 = i := by rw [← h1]
      subst hi
      rw [show deliveries (a :: as)
          = (a.1, a.2.f a.2.args) :: deliveries as from rfl,
        List.countP_cons, deliveries_countP_zero a.1 as hhead]
      simp
    · have hne : a.1 ≠ i := by
        intro h
        subst h
        exact hhead (List.mem_map.mpr ⟨(a.1, r), h2, rfl⟩)
      rw [show deliveries (a :: as)
          = (a.1, a.2.f a.2.args) :: deliveries as from rfl,
        List.countP_cons, ih hnd i r h2]
      simp [hne]

/-- Witness for C2: three concrete requests with distinct tokens, one of
them the source's own example `sum` of `[3, 4, 5]`; each reply channel
receives exactly one value. -/
theorem reply_exactly_once_witness :
    (deliveries [(0, ⟨[3, 4, 5], sum⟩), (1, ⟨[1], sum⟩),
        (2, ⟨[], sum⟩)]).countP (fun e => e.1 == 1) = 1 :=
  reply_exactly_once
    [(0, ⟨[3, 4, 5], sum⟩), (1, ⟨[1], sum⟩), (2, ⟨[], sum⟩)]
    (by decide) 1 ⟨[1], sum⟩ (by simp)

/-! ## Task failure isolation -/

/-- A value delivered on a reply: the task's result, or its error tagged
`TaskFailed`. -/
inductive Reply (Err Res : Type) where
  | result (v : Res) : Reply Err Res
  | taskFailed (e : Err) : Reply Err Res
deriving DecidableEq

/-- Modelled from the spec: a worker running a possibly-failing task body
delivers exactly one value through the reply — the result on success, the
error tagged `TaskFailed` on failure — never propagating the error as a
fault across the worker/producer boundary.  The source shows only
infallible task bodies (`f func([]int) int`), so the fallible case follows
the spec's error model. -/
def deliverOne {P Err Res : Type} (compute : P → Except Err Res) (p : P) :
    Reply Err Res :=
  match compute p with
  | Except.ok v => Reply.result v
  | Except.error e => Reply.taskFailed e

/-- The replies produced by running every submitted task, in order. -/
def runAll {P Err Res : Type} (compute : P → Except Err Res)
    (tasks : List P) : List (Reply Err Res) :=
  tasks.map (deliverOne compute)

/-- C6: in any mix of submitted tasks, every task gets a reply (lengths
match) and the i-th reply is a function of the i-th task alone — so a task
whose body errors yields `TaskFailed` with that error on its own reply,
while every other task's reply is its own result, unaffected. -/
theorem failing_task_isolated {P Err Res : Type}
    (compute : P → Except Err Res) (tasks : List P)
    (i : Nat) (h : i < tasks.length) :
    (runAll compute tasks).length = tasks.length ∧
    (runAll compute tasks).get
        ⟨i, by simpa [runAll] using h⟩ = deliverOne compute (tasks.get ⟨i, h⟩) ∧
    (∀ e, compute (tasks.get ⟨i, h⟩) = Except.error e →
      (runAll compute tasks).get
        ⟨i, by simpa [runAll] using h⟩ = Reply.taskFailed e) ∧
    (∀ v, compute (tasks.get ⟨i, h⟩) = Except.ok v →
      (runAll compute tasks).get
        ⟨i, by simpa [runAll] using h⟩ = Reply.result v) := by
  have hlen : (runAll compute tasks).length = tasks.length := by
    simp [runAll]
  have hget : (runAll compute tasks).get ⟨i, by simpa [runAll] using h⟩
      = deliverOne compute (tasks.get ⟨i, h⟩) := by
    simp [runAll]
  refine ⟨hlen, hget, ?_, ?_⟩
  · intro e he
    rw [hget]
    simp only [deliverOne]
    rw [he]
  · intro v hv
    rw [hget]
    simp only [deliverOne]
    rw [hv]

/-- Witness for C6: five concrete tasks where task 3 (index 2) errors; its
reply is `TaskFailed` and task 4's reply is its own successful result. -/
theorem failing_task_isolated_witness :
    ((runAll (fun n : Nat => if n == 3 then Except.error "boom"
        else Except.ok (n * n)) [1, 2, 3, 4, 5]).get
      ⟨2, by decide⟩ = Reply.taskFailed "boom") ∧
    ((runAll (fun n : Nat => if n == 3 then Except.error "boom"
        else Except.ok (n * n)) [1, 2, 3, 4, 5]).get
      ⟨3, by decide⟩ = Reply.result 16) := by
  refine ⟨?_, ?_⟩
  · exact (failing_task_isolated
      (fun n : Nat => if n == 3 then Except.error "boom"
        else Except.ok (n * n)) [1, 2, 3, 4, 5] 2 (by decide)).2.2.1
      "boom" rfl
  · exact (failing_task_isolated
      (fun n : Nat => if n == 3 then Except.error "boom"
        else Except.ok (n * n)) [1, 2, 3, 4, 5] 3 (by decide)).2.2.2
      16 rfl

/-! ## Reply-channel buffering

Source lines 626–648 give the channel semantics: `make(chan int)` allocates
an unbuffered channel (the optional buffer size defaults to zero); an
unbuffered sender blocks until the receiver has received the value; a
buffered sender blocks only until the value has been copied to the buffer,
waiting if the buffer is full.  The client at line 713 constructs the
request's reply channel as `make(chan int)`. -/

/-- A Go channel: its fixed buffer capacity and the values currently
buffered. -/
structure Chan (α : Type) where
  capacity : Nat
  buffer : List α

/-- Allocation `make(chan α, cap)`: a fresh channel with an empty buffer;
plain `make(chan α)` is `mkChan α 0`. -/
def mkChan (α : Type) (cap : Nat) : Chan α :=
  ⟨cap, []⟩

/-- Whether a send on the channel can complete while no receiver is
present: exactly when the buffer has room (source lines 644–648). -/
def sendHasRoom {α : Type} (c : Chan α) : Bool :=
  decide (c.buffer.length < c.capacity)

/-- The reply channel the client constructs in the source (line 713):
`make(chan int)`, i.e. unbuffered. -/
def resultChan : Chan Int :=
  mkChan Int 0

/-- Counterexample to C8: the reply channel as constructed is unbuffered,
so it is not a single-slot handoff that always has room for its one value —
a worker's write with the producer absent cannot complete. -/
theorem reply_write_can_block :
    resultChan.capacity = 0 ∧ sendHasRoom resultChan = false := by
  constructor <;> rfl

/-- C8, amended: the reply write on the code's unbuffered channel is a
rendezvous — it completes only when the producer receives, so a producer
that abandons `await` leaves the worker's write blocked; a single-slot
channel of capacity 1 with its one-value buffer empty would always have
room, but the code does not allocate one. -/
theorem reply_write_rendezvous :
    sendHasRoom resultChan = false ∧
    sendHasRoom (mkChan Int 1) = true := by
  constructor <;> rfl

/-! ## The executable program

src/main.go lines 499–501: `func main() { fmt.Println("Effective Go") }` —
the repository's one executable entry point. -/

/-- An observable effect of the program: a write of a string to standard
output. -/
inductive Effect where
  | stdout (s : String) : Effect
deriving DecidableEq

/-- Printing: `fmt.Println` writes its operand followed by a newline to
standard output. -/
def printlnEffects (s : String) : List Effect :=
  [Effect.stdout (s ++ "\n")]

/-- The process input: command-line arguments, environment variables, and
standard input. -/
structure ProgInput where
  args : List String
  env : List (String × String)
  stdin : String

/-- The body of `main` (src/main.go lines 499–501): the single call
`fmt.Println("Effective Go")`.  It is passed the process input only so the
theorems can state that it never consults it. -/
def mainEffects (_input : ProgInput) : List Effect :=
  printlnEffects "Effective Go"

/-- C9: however the program is invoked, its effect trace is exactly one
write of the string `Effective Go` followed by a newline to standard
output, and nothing else. -/
theorem main_prints_static_string (input : ProgInput) :
    mainEffects input = [Effect.stdout "Effective Go\n"] :=
  rfl

/-- C10: the program is deterministic and independent of all input — any
two invocations, whatever their arguments, environment, or standard input,
produce identical effect traces; and `mainEffects` is a total function, so
every run terminates. -/
theorem main_input_independent (i1 i2 : ProgInput) :
    mainEffects i1 = mainEffects i2 :=
  rfl

end EffectiveGo
